import Mathlib

/-!
Shallow embedding of `src/telebot_models/models.py` (package `telebot_models`).

Modelling conventions:
* Python dicts (documents, query filters, pydantic field sets) are
  insertion-ordered association lists `List (String × Value)`; `dictInsert`
  models `d[k] = v` (override in place, else append) and `dictMerge` models
  `{**a, **b}` / `dict.update`.
* A pydantic `Model` instance is a `Rec`: an association list keyed by
  attribute names (the identifier field is the key "id", stored under the
  alias "_id" in documents; `parseObj` and the alias renaming in `buildDoc`
  model `parse_obj` / `dict(by_alias=True)`).
* The Mongo store is `Store`, an association list from collection name to the
  list of documents in insertion order.  `find` returns matching documents in
  store order, `delete_one`/`update_one` act on the first match.
* Every physical store call emits an `Event`; functions return the event
  trace they produced, so ordering claims are statements about traces.
* Store-level failure is injected for `delete_one` only (the only place the
  claims need it): deleting a document whose `_id` is in `failIds` fails.
* `async`/`await`: the code awaits every store call sequentially; the
  embedding is the corresponding sequential composition.
-/

namespace TBM

/-- BSON-ish values appearing in documents and filters. `oid` models
`ObjectId`/`PyObjectId`. -/
inductive Value where
  | oid : Nat → Value
  | nat : Nat → Value
  | str : String → Value
deriving DecidableEq, Repr

/-- A Mongo document / Python dict, in insertion order. -/
abbrev Doc := List (String × Value)

/-- A query filter (`document_filter` in the source): also a Python dict. -/
abbrev DocFilter := List (String × Value)

/-- A pydantic model instance's field assignment, keyed by attribute name
(`id`, not the alias `_id`). -/
abbrev Rec := List (String × Value)

/-- Python `d.get(k)` / `getattr`: first binding of `k`. -/
def lookupKey (d : List (String × Value)) (k : String) : Option Value :=
  (d.find? (fun p => p.1 = k)).map (fun p => p.2)

/-- Python `k in d`. -/
def hasKey (d : List (String × Value)) (k : String) : Bool :=
  d.any (fun p => p.1 = k)

/-- Python `d[k] = v`: override the binding of `k` in place (Python dicts
hold each key once, so overriding the first occurrence is the dict
semantics), else append at the end of the insertion order. -/
def dictInsert : List (String × Value) → String → Value →
    List (String × Value)
  | [], k, v => [(k, v)]
  | p :: d, k, v => if p.1 = k then (k, v) :: d else p :: dictInsert d k v

/-- Python `{**a, **b}` (also `a.update(b)`): fold the bindings of `b` into
`a`. -/
def dictMerge (a b : List (String × Value)) : List (String × Value) :=
  b.foldl (fun acc p => dictInsert acc p.1 p.2) a

/-- A document matches a filter iff every filter binding holds of it
(equality predicates only, which is all the source's own call sites build). -/
def matchesFilter (f : DocFilter) (d : Doc) : Bool :=
  f.all (fun p => decide (lookupKey d p.1 = some p.2))

/-- Decoding `model.parse_obj(doc)`: the alias `_id` populates the field
`id` (`allow_population_by_field_name`); other keys carry over. -/
def parseObj (d : Doc) : Rec :=
  d.map (fun p => if p.1 = "_id" then ("id", p.2) else p)

/-- Assignment `model.k = v` on an existing field. -/
def setField (r : Rec) (k : String) (v : Value) : Rec :=
  r.map (fun p => if p.1 = k then (k, v) else p)

/-- The backing store: collection name ↦ documents in insertion order. -/
abbrev Store := List (String × List Doc)

/-- Documents of a collection (empty when the collection does not exist). -/
def getColl : Store → String → List Doc
  | [], _ => []
  | p :: s, c => if p.1 = c then p.2 else getColl s c

/-- Replacement of the contents of collection `c` (the store is a mapping,
so the first binding is the collection). -/
def setColl : Store → String → List Doc → Store
  | [], c, docs => [(c, docs)]
  | p :: s, c, docs => if p.1 = c then (c, docs) :: s else p :: setColl s c docs

/-- Model of `collection.find(f).to_list(None)`: all matches, in store
order. -/
def findDocs (f : DocFilter) (docs : List Doc) : List Doc :=
  docs.filter (matchesFilter f)

/-- Model of `collection.delete_one(f)`: remove the first match; also return
`deleted_count`. -/
def removeFirstMatch (f : DocFilter) : List Doc → List Doc × Nat
  | [] => ([], 0)
  | d :: ds =>
    if matchesFilter f d then (ds, 1)
    else
      let r := removeFirstMatch f ds
      (d :: r.1, r.2)

/-- Model of `collection.update_one(f, set-spec)`: merge the update document
into the first match (the `$set` semantics); returns (new docs,
matched_count, modified_count). -/
def updateFirstMatch (f : DocFilter) (upd : Doc) :
    List Doc → List Doc × Nat × Nat
  | [] => ([], 0, 0)
  | d :: ds =>
    if matchesFilter f d then
      let d' := dictMerge d upd
      (d' :: ds, 1, if d' = d then 0 else 1)
    else
      let r := updateFirstMatch f upd ds
      (d :: r.1, r.2.1, r.2.2)

/-- One physical store call, with its collection and payload. -/
inductive Event where
  | findOneE : String → DocFilter → Event
  | findAllE : String → DocFilter → Event
  | insertOneE : String → Doc → Event
  | updateOneE : String → DocFilter → Doc → Event
  | deleteOneE : String → DocFilter → Event
  | deleteManyE : String → DocFilter → Event
deriving DecidableEq, Repr

/-- Errors surfacing to the caller: `notFound` is the `ValueError` raised by
`find_one`, `storeFailure` an injected driver-level failure, `attrError` a
Python `AttributeError` on a missing field, `outOfFuel` the modelling
artefact for non-termination of the unguarded cascade recursion. -/
inductive Err where
  | notFound : DocFilter → Err
  | storeFailure : Err
  | attrError : Err
  | outOfFuel : Err
deriving DecidableEq, Repr

/-- One entry of `BaseModelManager._relation_map`: the source stores the
tuple `(model_cls, field_name, model_field_name)`; `childMgr` is the index
of `model_cls.manager`.  `owner` is ghost metadata recording which manager
class's `relation_map` decorator appended the entry — the source does NOT
record this (the tuple has no owner component), and `_relation_map` is a
single list class attribute on `BaseModelManager` shared by every manager
subclass, so `delete` iterates the whole list whatever `cls` is. -/
structure RegEntry where
  owner : Nat
  childMgr : Nat
  fieldName : String
  modelFieldName : String
deriving DecidableEq, Repr

/-- The static side of the system: each manager index's collection name, and
the global `_relation_map` contents in registration order. -/
structure Env where
  collections : Nat → String
  regs : List RegEntry

/-- Registration `cls.relation_map(field_name, model_field_name)` applied to
a child model class: appends to the (shared) relation map.  `owner` is the
class the decorator was invoked on. -/
def registerRelation (regs : List RegEntry)
    (owner childMgr : Nat) (fieldName modelFieldName : String) :
    List RegEntry :=
  regs ++ [⟨owner, childMgr, fieldName, modelFieldName⟩]

/-- Fault injection: `delete_one` on a filter pinpointing an `_id` in
`failIds` fails at the driver. -/
def failsDelete (failIds : List Nat) (f : DocFilter) : Bool :=
  match lookupKey f "_id" with
  | some (Value.oid i) => failIds.contains i
  | _ => false

mutual

/-- Model of `BaseModelManager.delete(model)` (classmethod of manager `mgr`):
first the cascade over the whole `_relation_map`, then
`delete_one({'_id': model.id})` on `mgr`'s own collection.  Returns
(outcome, store after, events emitted by this call), where the store and
trace reflect all effects performed before an error. -/
def delete (env : Env) (failIds : List Nat) :
    Nat → Nat → Rec → Store → Except Err Nat × Store × List Event
  | 0, _, _, store => (Except.error Err.outOfFuel, store, [])
  | fuel + 1, mgr, model, store =>
    match cascadeEdges env failIds fuel env.regs model store with
    | (Except.error e, s, t) => (Except.error e, s, t)
    | (Except.ok _, s, t) =>
      match lookupKey model "id" with
      | none => (Except.error Err.attrError, s, t)
      | some idv =>
        let coll := env.collections mgr
        let f : DocFilter := [("_id", idv)]
        if failsDelete failIds f then
          (Except.error Err.storeFailure, s, t ++ [Event.deleteOneE coll f])
        else
          let r := removeFirstMatch f (getColl s coll)
          (Except.ok r.2, setColl s coll r.1, t ++ [Event.deleteOneE coll f])

/-- The `for _cls, field_name, model_field_name in cls._relation_map:` loop
of `delete`: per edge, `find_all` the children scoped by
`{field_name: getattr(model, model_field_name)}` then delete each. -/
def cascadeEdges (env : Env) (failIds : List Nat) :
    Nat → List RegEntry → Rec → Store → Except Err Unit × Store × List Event
  | 0, _, _, store => (Except.error Err.outOfFuel, store, [])
  | _ + 1, [], _, store => (Except.ok (), store, [])
  | fuel + 1, e :: es, model, store =>
    match lookupKey model e.modelFieldName with
    | none => (Except.error Err.attrError, store, [])
    | some pv =>
      let cColl := env.collections e.childMgr
      let f : DocFilter := [(e.fieldName, pv)]
      let objs := (findDocs f (getColl store cColl)).map parseObj
      match cascadeObjs env failIds fuel e.childMgr objs store with
      | (Except.error er, s, t) =>
        (Except.error er, s, Event.findAllE cColl f :: t)
      | (Except.ok _, s, t) =>
        match cascadeEdges env failIds fuel es model s with
        | (r, s2, t2) => (r, s2, Event.findAllE cColl f :: (t ++ t2))

/-- The inner `for obj in objs: await obj.delete()` loop: each fetched child
record's own `delete` (dispatched through `_cls.manager`), in fetch order. -/
def cascadeObjs (env : Env) (failIds : List Nat) :
    Nat → Nat → List Rec → Store → Except Err Unit × Store × List Event
  | 0, _, _, store => (Except.error Err.outOfFuel, store, [])
  | _ + 1, _, [], store => (Except.ok (), store, [])
  | fuel + 1, cm, o :: os, store =>
    match delete env failIds fuel cm o store with
    | (Except.error e, s, t) => (Except.error e, s, t)
    | (Except.ok _, s, t) =>
      match cascadeObjs env failIds fuel cm os s with
      | (r, s2, t2) => (r, s2, t ++ t2)

end

/-- The filter `find_one` actually queries with: a leading `ObjectId`
positional argument is folded into the standing filter by
`self.document_filter.update({'_id': args[0]})`; any other first argument is
passed through to the driver (as a projection) and does not affect the
filter. -/
def effectiveFilter (df : DocFilter) (arg : Option Value) : DocFilter :=
  match arg with
  | some (Value.oid i) => dictInsert df "_id" (Value.oid i)
  | _ => df

/-- Model of `BaseModelManager.find_one(args, raise_exception=True)`.  Returns
(outcome, the receiver's `document_filter` after the call — the source
mutates it in place when `args[0]` is an `ObjectId` — and the events).  A
missing document raises `ValueError` when `raise_exception` else yields
`None`. -/
def find_one (env : Env) (mgr : Nat) (df : DocFilter) (arg : Option Value)
    (raiseException : Bool) (store : Store) :
    Except Err (Option Rec) × DocFilter × List Event :=
  let df' := effectiveFilter df arg
  let coll := env.collections mgr
  match (getColl store coll).find? (fun d => matchesFilter df' d) with
  | none =>
    if raiseException then
      (Except.error (Err.notFound df'), df', [Event.findOneE coll df'])
    else (Except.ok none, df', [Event.findOneE coll df'])
  | some d => (Except.ok (some (parseObj d)), df', [Event.findOneE coll df'])

/-- The generated reverse accessor `obj` from `relation_map`:
if the per-instance cache slot is `None`, run
`cls().find_one(getattr(self, field_name))` (a fresh manager, default
`raise_exception=True`) and store the result in the slot; return the slot.
Returns (outcome, slot after the call, events). -/
def objAccessor (env : Env) (parentMgr : Nat) (fieldName : String)
    (self : Rec) (cache : Option Rec) (store : Store) :
    Except Err (Option Rec) × Option Rec × List Event :=
  match cache with
  | some v => (Except.ok (some v), some v, [])
  | none =>
    match lookupKey self fieldName with
    | none => (Except.error Err.attrError, none, [])
    | some v =>
      match find_one env parentMgr [] (some v) true store with
      | (Except.error e, _, t) => (Except.error e, none, t)
      | (Except.ok r, _, t) => (Except.ok r, r, t)

/-- Model of `BaseModelManager.filter(document_filter)`: builds the new manager's
filter `{**self.document_filter, **document_filter}` (with `None`/falsy
arguments replaced by `{}`).  First component: the new manager's standing
filter; second: the receiver's `document_filter` after the call (the source
builds a fresh dict by unpacking and never writes to the receiver's). -/
def filter (df : DocFilter) (arg : Option DocFilter) : DocFilter × DocFilter :=
  (dictMerge df (arg.getD []), df)

/-- Model of `BaseModelManager.delete_many()`: one `delete_many(self.document_filter)`
on the manager's own collection.  Returns (deleted_count, store after,
events).  The relation map is never consulted. -/
def delete_many (env : Env) (mgr : Nat) (df : DocFilter) (store : Store) :
    Nat × Store × List Event :=
  let coll := env.collections mgr
  let docs := getColl store coll
  let kept := docs.filter (fun d => !matchesFilter df d)
  (docs.length - kept.length, setColl store coll kept,
    [Event.deleteManyE coll df])

/-- Truthiness of the `include` kwarg (`None` and the empty set are falsy). -/
def truthy (o : Option (List String)) : Bool :=
  match o with
  | none => false
  | some l => !l.isEmpty

/-- Field selection of pydantic `dict(include=inc, exclude=exc)`: a field
named `k` is emitted iff it passes both the `include` and the `exclude`
selection. -/
def keepField (inc exc : Option (List String)) (k : String) : Bool :=
  (match inc with
   | none => true
   | some l => l.contains k) &&
  (match exc with
   | none => true
   | some l => !l.contains k)

/-- Serialization `model.dict(by_alias=True, exclude=exc, include=inc)`:
keep the selected fields, each emitted under its alias (`id` ↦ `_id`). -/
def buildDoc : Rec → Option (List String) → Option (List String) → Doc
  | [], _, _ => []
  | p :: m, inc, exc =>
    if keepField inc exc p.1 then
      (if p.1 = "id" then ("_id", p.2) else p) :: buildDoc m inc exc
    else buildDoc m inc exc

/-- The shared include/exclude preamble of `insert` and `update`: when `inc`
is truthy, `exclude` is dropped; otherwise `'id'` is added to the (possibly
empty) exclude set, and the (falsy) `inc` is still handed to the serializer. -/
def selectedDocument (model : Rec) (inc exc : Option (List String)) : Doc :=
  buildDoc model inc (if truthy inc then none else some ("id" :: exc.getD []))

/-- Model of `BaseModelManager.insert(model, include=inc, exclude=exc)`.
The driver assigns `_id` when the document lacks one (`newId` is the
store-generated ObjectId, placed into the very document dict that was
passed in), and the trailing assignment of the stored `_id` onto `model.id`
writes the persisted identifier back.  Returns (model after write-back,
store after, events). -/
def insert (env : Env) (mgr : Nat) (model : Rec)
    (inc exc : Option (List String)) (newId : Nat) (store : Store) :
    Rec × Store × List Event :=
  let document := selectedDocument model inc exc
  let coll := env.collections mgr
  let document' :=
    if hasKey document "_id" then document
    else document ++ [("_id", Value.oid newId)]
  let store' := setColl store coll (getColl store coll ++ [document'])
  let idv := (lookupKey document' "_id").getD (Value.oid newId)
  (setField model "id" idv, store', [Event.insertOneE coll document'])

/-- Model of `BaseModelManager.update(model, include=inc, exclude=exc)`: same
field selection as `insert`, then an `update_one` on the filter pinning the
identifier of `model`, with the selected fields as a `$set` spec.  The raw
`UpdateResult` is modelled as (matched_count, modified_count); the source
never inspects it, so a zero-match outcome returns normally. -/
def update (env : Env) (mgr : Nat) (model : Rec)
    (inc exc : Option (List String)) (store : Store) :
    Except Err (Nat × Nat) × Store × List Event :=
  match lookupKey model "id" with
  | none => (Except.error Err.attrError, store, [])
  | some idv =>
    let document := selectedDocument model inc exc
    let coll := env.collections mgr
    let f : DocFilter := [("_id", idv)]
    let r := updateFirstMatch f document (getColl store coll)
    (Except.ok (r.2.1, r.2.2), setColl store coll r.1,
      [Event.updateOneE coll f document])

/-! Concrete configurations used by witnesses and counterexamples. -/

/-- Manager 0 backed by collection "parents", manager 1 by "children",
manager 2 by "grand"; one edge, registered through the decorator of
manager 0, from child type 1 whose field "p_id" references the parent
field "id". -/
def envC : Env :=
  { collections := fun i =>
      if i = 0 then "parents" else if i = 1 then "children" else "grand",
    regs := registerRelation [] 0 1 "p_id" "id" }

/-- A parent record of manager 0. -/
def pRec : Rec := [("id", Value.oid 1), ("name", Value.str "p")]

/-- The document of `pRec` plus two child documents referencing it. -/
def storeC : Store :=
  [("parents", [[("_id", Value.oid 1), ("name", Value.str "p")]]),
   ("children",
     [[("_id", Value.oid 2), ("p_id", Value.oid 1)],
      [("_id", Value.oid 3), ("p_id", Value.oid 1)]])]

/-- Managers A = 0 (collection "a"), B = 1 ("b"), C = 2 ("c"); the only
edge is registered through the decorator of manager A. -/
def env1 : Env :=
  { collections := fun i => if i = 0 then "a" else if i = 1 then "b" else "c",
    regs := registerRelation [] 0 2 "a_id" "id" }

/-- A record of manager B, which has no edge of its own registered. -/
def bRec : Rec := [("id", Value.oid 10)]

/-- The document of `bRec`, and one document of type C that happens to
reference identifier 10 through the field "a_id" of the A-owned edge. -/
def store1 : Store :=
  [("b", [[("_id", Value.oid 10)]]),
   ("c", [[("_id", Value.oid 20), ("a_id", Value.oid 10)]])]

/-! Helper lemmas about the dictionary and store primitives. -/

theorem lookupKey_dictInsert (d : List (String × Value)) (k : String)
    (v : Value) : lookupKey (dictInsert d k v) k = some v := by
  induction d with
  | nil => simp [dictInsert, lookupKey]
  | cons p d ih =>
    by_cases h : p.1 = k
    · simp [dictInsert, h, lookupKey]
    · simp [dictInsert, h, lookupKey, List.find?] at ih ⊢
      simpa [h] using ih

theorem dictInsert_of_not_hasKey (d : List (String × Value)) (k : String)
    (v : Value) (h : hasKey d k = false) :
    dictInsert d k v = d ++ [(k, v)] := by
  induction d with
  | nil => simp [dictInsert]
  | cons p d ih =>
    simp [hasKey] at h
    simp [dictInsert, h.1, ih (by simpa [hasKey] using h.2)]

theorem hasKey_append (a b : List (String × Value)) (k : String) :
    hasKey (a ++ b) k = (hasKey a k || hasKey b k) := by
  simp [hasKey, List.any_append]

theorem dictMerge_eq_append (a b : List (String × Value))
    (hd : ∀ k ∈ b.map Prod.fst, hasKey a k = false)
    (hb : (b.map Prod.fst).Nodup) : dictMerge a b = a ++ b := by
  induction b generalizing a with
  | nil => simp [dictMerge]
  | cons p b ih =>
    have hp : hasKey a p.1 = false := hd p.1 (by simp)
    have step : dictMerge a (p :: b) = dictMerge (a ++ [p]) b := by
      simp [dictMerge, dictInsert_of_not_hasKey a p.1 p.2 hp]
    rw [step, ih (a ++ [p])]
    · simp
    · intro k hk
      rw [hasKey_append]
      have h1 : hasKey a k = false := hd k (by simp [hk])
      have h2 : hasKey [p] k = false := by
        simp [hasKey]
        intro hkp
        rw [List.map_cons] at hb
        rcases List.nodup_cons.mp hb with ⟨hnp, _⟩
        exact absurd (hkp ▸ hk) hnp
      simp [h1, h2]
    · rw [List.map_cons] at hb
      exact (List.nodup_cons.mp hb).2

theorem getColl_setColl (s : Store) (c c' : String) (docs : List Doc) :
    getColl (setColl s c' docs) c = if c = c' then docs else getColl s c := by
  induction s with
  | nil =>
    rcases eq_or_ne c c' with h | h
    · subst h; simp [setColl, getColl]
    · simp [setColl, getColl, h, Ne.symm h]
  | cons p s ih =>
    rcases eq_or_ne p.1 c' with h | h
    · rcases eq_or_ne c c' with h2 | h2
      · subst h2; simp [setColl, getColl, h]
      · have hpc : p.1 ≠ c := by rw [h]; exact Ne.symm h2
        simp [setColl, getColl, h, h2, hpc, Ne.symm h2]
    · rcases eq_or_ne p.1 c with h2 | h2
      · have hcc : c ≠ c' := by rw [← h2]; exact h
        simp [setColl, getColl, h, h2, hcc]
      · simp [setColl, getColl, h, h2, ih]

theorem updateFirstMatch_of_no_match (f : DocFilter) (u : Doc)
    (docs : List Doc) (h : ∀ d ∈ docs, matchesFilter f d = false) :
    updateFirstMatch f u docs = (docs, 0, 0) := by
  induction docs with
  | nil => simp [updateFirstMatch]
  | cons d ds ih =>
    have hd : matchesFilter f d = false := h d (by simp)
    simp [updateFirstMatch, hd, ih (fun x hx => h x (by simp [hx]))]

theorem find_one_trace_length (env : Env) (mgr : Nat) (df : DocFilter)
    (arg : Option Value) (re : Bool) (store : Store) :
    ((find_one env mgr df arg re store).2.2).length = 1 := by
  unfold find_one
  rcases hf : (getColl store (env.collections mgr)).find?
      (fun d => matchesFilter (effectiveFilter df arg) d) with _ | d
  · by_cases hre : re <;> simp [hf, hre]
  · simp [hf]

theorem lookupKey_append_single (d : List (String × Value)) (k : String)
    (v : Value) (h : hasKey d k = false) :
    lookupKey (d ++ [(k, v)]) k = some v := by
  induction d with
  | nil => simp [lookupKey]
  | cons p d ih =>
    simp [hasKey] at h
    simp [lookupKey, List.find?, h.1] at ih ⊢
    simpa [h.1] using ih (by simpa [hasKey] using h.2)

theorem hasKey_eq_isSome_lookupKey (d : List (String × Value))
    (k : String) : hasKey d k = (lookupKey d k).isSome := by
  induction d with
  | nil => simp [hasKey, lookupKey]
  | cons p m ih =>
    by_cases hp : p.1 = k
    · simp [hasKey, lookupKey, List.find?, hp]
    · simp [hasKey, lookupKey, List.find?, hp] at ih ⊢
      exact ih

theorem lookupKey_setField (r : Rec) (k : String) (v : Value)
    (h : hasKey r k = true) : lookupKey (setField r k v) k = some v := by
  induction r with
  | nil => simp [hasKey] at h
  | cons p m ih =>
    by_cases hp : p.1 = k
    · simp [setField, lookupKey, List.find?, hp]
    · simp [hasKey, hp] at h
      simp [setField, lookupKey, List.find?, hp] at ih ⊢
      simpa [hp] using ih (by simpa [hasKey] using h)

theorem hasKey_buildDoc_exclude_id (m : Rec) (inc : Option (List String))
    (l : List String) (h : hasKey m "_id" = false) :
    hasKey (buildDoc m inc (some ("id" :: l))) "_id" = false := by
  induction m with
  | nil => simp [buildDoc, hasKey]
  | cons p m ih =>
    simp [hasKey] at h
    have ihm := ih (by simpa [hasKey] using h.2)
    unfold buildDoc
    by_cases hc : keepField inc (some ("id" :: l)) p.1 = true
    · have hc2 := hc
      simp [keepField] at hc2
      have hne : p.1 ≠ "id" := hc2.2.1
      rw [if_pos hc]
      simp [hasKey, hne, h.1]
      simpa [hasKey] using ihm
    · rw [if_neg hc]
      exact ihm

/-! Claim theorems. -/

/-- C1 (the code against the claimed behaviour): the source keeps
`_relation_map` as a single mutable class attribute of `BaseModelManager`
shared by every manager subclass, and the registered tuple does not record
the registering class, so `delete` walks every registered edge whatever
manager it runs on.  Here the only edge is registered through the decorator
of manager 0 (first conjunct: the ghost `owner` field is 0), yet `delete`
invoked on manager 1 walks it: its trace fetches and deletes in collection
"c" (owned by the child type of the manager-0 edge) before deleting the
manager-1 document, and the "c" document referencing identifier 10 is gone
afterwards. -/
theorem delete_walks_foreign_edges :
    env1.regs = [⟨0, 2, "a_id", "id"⟩] ∧
    delete env1 [] 8 1 bRec store1 =
      (Except.ok 1,
       [("b", []), ("c", [])],
       [Event.findAllE "c" [("a_id", Value.oid 10)],
        Event.findAllE "c" [("a_id", Value.oid 20)],
        Event.deleteOneE "c" [("_id", Value.oid 20)],
        Event.deleteOneE "b" [("_id", Value.oid 10)]]) :=
  ⟨rfl, rfl⟩

/-- C2: the parent `delete_one` is issued strictly after the whole cascade
(first part: on cascade success the trace of `delete` is the cascade trace
followed by exactly the parent `delete_one`, applied to the cascade's
resulting store); the registered edges are processed sequentially in list
order (second part: the head edge's fetch and child deletions complete, on
the store they leave, before the remaining edges run, and the traces
concatenate in that order); within one edge the fetched child records are
deleted sequentially in fetch order (third part). -/
theorem delete_parent_last_and_sequential :
    (∀ (env : Env) (failIds : List Nat) (fuel mgr : Nat) (model : Rec)
       (store s : Store) (t : List Event) (idv : Value) (docs : List Doc)
       (n : Nat),
       cascadeEdges env failIds fuel env.regs model store =
         (Except.ok (), s, t) →
       lookupKey model "id" = some idv →
       failsDelete failIds [("_id", idv)] = false →
       removeFirstMatch [("_id", idv)] (getColl s (env.collections mgr)) =
         (docs, n) →
       delete env failIds (fuel + 1) mgr model store =
         (Except.ok n, setColl s (env.collections mgr) docs,
          t ++ [Event.deleteOneE (env.collections mgr) [("_id", idv)]])) ∧
    (∀ (env : Env) (failIds : List Nat) (fuel : Nat) (e : RegEntry)
       (es : List RegEntry) (model : Rec) (store s1 s2 : Store)
       (t1 t2 : List Event) (pv : Value) (r : Except Err Unit),
       lookupKey model e.modelFieldName = some pv →
       cascadeObjs env failIds fuel e.childMgr
           ((findDocs [(e.fieldName, pv)]
             (getColl store (env.collections e.childMgr))).map parseObj)
           store = (Except.ok (), s1, t1) →
       cascadeEdges env failIds fuel es model s1 = (r, s2, t2) →
       cascadeEdges env failIds (fuel + 1) (e :: es) model store =
         (r, s2, Event.findAllE (env.collections e.childMgr)
             [(e.fieldName, pv)] :: (t1 ++ t2))) ∧
    (∀ (env : Env) (failIds : List Nat) (fuel cm n : Nat) (o : Rec)
       (os : List Rec) (store s1 s2 : Store) (t1 t2 : List Event)
       (r : Except Err Unit),
       delete env failIds fuel cm o store = (Except.ok n, s1, t1) →
       cascadeObjs env failIds fuel cm os s1 = (r, s2, t2) →
       cascadeObjs env failIds (fuel + 1) cm (o :: os) store =
         (r, s2, t1 ++ t2)) := by
  refine ⟨?_, ?_, ?_⟩
  · intro env failIds fuel mgr model store s t idv docs n hc hid hok hrm
    simp [delete, hc, hid, hok, hrm]
  · intro env failIds fuel e es model store s1 s2 t1 t2 pv r hm hobjs hrest
    simp [cascadeEdges, hm, hobjs, hrest]
  · intro env failIds fuel cm n o os store s1 s2 t1 t2 r hdel hrest
    simp [cascadeObjs, hdel, hrest]

/-- C2 witness: the three parts of `delete_parent_last_and_sequential`
instantiated on the concrete parent-with-two-children store. -/
theorem delete_parent_last_and_sequential_witness :
    delete envC [] 12 0 pRec storeC =
      (Except.ok 1,
       setColl
         [("parents", [[("_id", Value.oid 1), ("name", Value.str "p")]]),
          ("children", [])] "parents" [],
       [Event.findAllE "children" [("p_id", Value.oid 1)],
        Event.findAllE "children" [("p_id", Value.oid 2)],
        Event.deleteOneE "children" [("_id", Value.oid 2)],
        Event.findAllE "children" [("p_id", Value.oid 3)],
        Event.deleteOneE "children" [("_id", Value.oid 3)]] ++
        [Event.deleteOneE "parents" [("_id", Value.oid 1)]]) ∧
    cascadeEdges envC [] 11 [⟨0, 1, "p_id", "id"⟩] pRec storeC =
      (Except.ok (),
       [("parents", [[("_id", Value.oid 1), ("name", Value.str "p")]]),
        ("children", [])],
       Event.findAllE "children" [("p_id", Value.oid 1)] ::
         ([Event.findAllE "children" [("p_id", Value.oid 2)],
           Event.deleteOneE "children" [("_id", Value.oid 2)],
           Event.findAllE "children" [("p_id", Value.oid 3)],
           Event.deleteOneE "children" [("_id", Value.oid 3)]] ++ [])) ∧
    cascadeObjs envC [] 10 1
        [[("id", Value.oid 2), ("p_id", Value.oid 1)]] storeC =
      (Except.ok (),
       [("parents", [[("_id", Value.oid 1), ("name", Value.str "p")]]),
        ("children", [[("_id", Value.oid 3), ("p_id", Value.oid 1)]])],
       [Event.findAllE "children" [("p_id", Value.oid 2)],
        Event.deleteOneE "children" [("_id", Value.oid 2)]] ++ []) :=
  ⟨delete_parent_last_and_sequential.1 envC [] 11 0 pRec storeC
      [("parents", [[("_id", Value.oid 1), ("name", Value.str "p")]]),
       ("children", [])]
      [Event.findAllE "children" [("p_id", Value.oid 1)],
       Event.findAllE "children" [("p_id", Value.oid 2)],
       Event.deleteOneE "children" [("_id", Value.oid 2)],
       Event.findAllE "children" [("p_id", Value.oid 3)],
       Event.deleteOneE "children" [("_id", Value.oid 3)]]
      (Value.oid 1) [] 1 rfl rfl rfl rfl,
   delete_parent_last_and_sequential.2.1 envC [] 10 ⟨0, 1, "p_id", "id"⟩ []
      pRec storeC
      [("parents", [[("_id", Value.oid 1), ("name", Value.str "p")]]),
       ("children", [])]
      [("parents", [[("_id", Value.oid 1), ("name", Value.str "p")]]),
       ("children", [])]
      [Event.findAllE "children" [("p_id", Value.oid 2)],
       Event.deleteOneE "children" [("_id", Value.oid 2)],
       Event.findAllE "children" [("p_id", Value.oid 3)],
       Event.deleteOneE "children" [("_id", Value.oid 3)]]
      [] (Value.oid 1) (Except.ok ()) rfl rfl rfl,
   delete_parent_last_and_sequential.2.2 envC [] 9 1 1
      [("id", Value.oid 2), ("p_id", Value.oid 1)] [] storeC
      [("parents", [[("_id", Value.oid 1), ("name", Value.str "p")]]),
       ("children", [[("_id", Value.oid 3), ("p_id", Value.oid 1)]])]
      [("parents", [[("_id", Value.oid 1), ("name", Value.str "p")]]),
       ("children", [[("_id", Value.oid 3), ("p_id", Value.oid 1)]])]
      [Event.findAllE "children" [("p_id", Value.oid 2)],
       Event.deleteOneE "children" [("_id", Value.oid 2)]]
      [] (Except.ok ()) rfl rfl⟩

/-- C3: a failure while deleting a cascaded child propagates out of `delete`
unchanged, and the store and trace of the whole call are exactly those the
partial cascade left: the remaining cascade steps and the parent
`delete_one` are not issued (no event is appended), the parent document is
untouched by this call, and child deletions that already succeeded are kept
(nothing is rolled back). -/
theorem delete_cascade_failure_propagates (env : Env) (failIds : List Nat)
    (fuel mgr : Nat) (model : Rec) (store s : Store) (e : Err)
    (t : List Event)
    (hc : cascadeEdges env failIds fuel env.regs model store =
      (Except.error e, s, t)) :
    delete env failIds (fuel + 1) mgr model store =
      (Except.error e, s, t) := by
  simp [delete, hc]

/-- C3 witness: parent 1 with children 2 and 3; deleting child 3 fails at
the store.  The cascade error propagates, child 2 is already gone and stays
gone, child 3 and the parent document survive, and no `delete_one` on
"parents" was issued. -/
theorem delete_cascade_failure_propagates_witness :
    cascadeEdges envC [3] 11 envC.regs pRec storeC =
      (Except.error Err.storeFailure,
       [("parents", [[("_id", Value.oid 1), ("name", Value.str "p")]]),
        ("children", [[("_id", Value.oid 3), ("p_id", Value.oid 1)]])],
       [Event.findAllE "children" [("p_id", Value.oid 1)],
        Event.findAllE "children" [("p_id", Value.oid 2)],
        Event.deleteOneE "children" [("_id", Value.oid 2)],
        Event.findAllE "children" [("p_id", Value.oid 3)],
        Event.deleteOneE "children" [("_id", Value.oid 3)]]) ∧
    delete envC [3] 12 0 pRec storeC =
      (Except.error Err.storeFailure,
       [("parents", [[("_id", Value.oid 1), ("name", Value.str "p")]]),
        ("children", [[("_id", Value.oid 3), ("p_id", Value.oid 1)]])],
       [Event.findAllE "children" [("p_id", Value.oid 1)],
        Event.findAllE "children" [("p_id", Value.oid 2)],
        Event.deleteOneE "children" [("_id", Value.oid 2)],
        Event.findAllE "children" [("p_id", Value.oid 3)],
        Event.deleteOneE "children" [("_id", Value.oid 3)]]) :=
  ⟨rfl,
   delete_cascade_failure_propagates envC [3] 11 0 pRec storeC
     [("parents", [[("_id", Value.oid 1), ("name", Value.str "p")]]),
      ("children", [[("_id", Value.oid 3), ("p_id", Value.oid 1)]])]
     Err.storeFailure
     [Event.findAllE "children" [("p_id", Value.oid 1)],
      Event.findAllE "children" [("p_id", Value.oid 2)],
      Event.deleteOneE "children" [("_id", Value.oid 2)],
      Event.findAllE "children" [("p_id", Value.oid 3)],
      Event.deleteOneE "children" [("_id", Value.oid 3)]] rfl⟩

/-- C4 (amended): the first call on an empty cache slot issues exactly one
`find_one` lookup on the value of the child's relation field; when a parent
record is found it is stored in the slot and returned, and a second call
with the filled slot returns the very same record with no store access at
all — whatever the store then contains (`store2`).  So two calls issue
exactly one underlying lookup and return the same value. -/
theorem obj_accessor_caches_found_parent (env : Env) (pm : Nat)
    (fn : String) (self : Rec) (store store2 : Store) (v : Value) (r : Rec)
    (df : DocFilter) (t : List Event)
    (hf : lookupKey self fn = some v)
    (hone : find_one env pm [] (some v) true store =
      (Except.ok (some r), df, t)) :
    objAccessor env pm fn self none store = (Except.ok (some r), some r, t) ∧
    objAccessor env pm fn self (some r) store2 =
      (Except.ok (some r), some r, []) ∧
    t.length = 1 := by
  refine ⟨?_, rfl, ?_⟩
  · simp [objAccessor, hf, hone]
  · have hl := find_one_trace_length env pm [] (some v) true store
    rw [hone] at hl
    exact hl

/-- C4 witness: child record 2 holds "p_id" 1; the parent with identifier 1
exists.  The first accessor call resolves and caches it with one `find_one`
event; the second call (cache filled, and even on the emptied store) returns
the cached record with no event. -/
theorem obj_accessor_caches_found_parent_witness :
    objAccessor envC 0 "p_id" [("id", Value.oid 2), ("p_id", Value.oid 1)]
        none storeC =
      (Except.ok (some [("id", Value.oid 1), ("name", Value.str "p")]),
       some [("id", Value.oid 1), ("name", Value.str "p")],
       [Event.findOneE "parents" [("_id", Value.oid 1)]]) ∧
    objAccessor envC 0 "p_id" [("id", Value.oid 2), ("p_id", Value.oid 1)]
        (some [("id", Value.oid 1), ("name", Value.str "p")]) [] =
      (Except.ok (some [("id", Value.oid 1), ("name", Value.str "p")]),
       some [("id", Value.oid 1), ("name", Value.str "p")], []) ∧
    [Event.findOneE "parents" [("_id", Value.oid 1)]].length = 1 :=
  obj_accessor_caches_found_parent envC 0 "p_id"
    [("id", Value.oid 2), ("p_id", Value.oid 1)] storeC []
    (Value.oid 1) [("id", Value.oid 1), ("name", Value.str "p")]
    [("_id", Value.oid 1)]
    [Event.findOneE "parents" [("_id", Value.oid 1)]] rfl rfl

/-- C4 counterexample to the claim as stated: with no matching parent
document, the first invocation raises (the generated accessor calls
`find_one` with the default `raise_exception=True`) and stores nothing in
the cache slot — the "not found" outcome is not cached — and a second
invocation on the same instance issues a second lookup: two calls produce
two `find_one` events, not one. -/
theorem obj_accessor_not_found_not_cached :
    objAccessor envC 0 "p_id" [("id", Value.oid 9), ("p_id", Value.oid 5)]
        none [] =
      (Except.error (Err.notFound [("_id", Value.oid 5)]), none,
       [Event.findOneE "parents" [("_id", Value.oid 5)]]) ∧
    ((objAccessor envC 0 "p_id" [("id", Value.oid 9), ("p_id", Value.oid 5)]
        none []).2.2 ++
      (objAccessor envC 0 "p_id" [("id", Value.oid 9), ("p_id", Value.oid 5)]
        ((objAccessor envC 0 "p_id"
          [("id", Value.oid 9), ("p_id", Value.oid 5)] none []).2.1)
        []).2.2).length = 2 :=
  ⟨rfl, rfl⟩

/-- C5: on a standing filter (plus optional identifier argument) matching
zero documents, `find_one` with `raise_exception=False` returns `None`
without error, and with the default `raise_exception=True` it fails with
the not-found `ValueError`; in both cases the single driver lookup was
issued. -/
theorem find_one_missing_raise_or_none (env : Env) (mgr : Nat)
    (df : DocFilter) (arg : Option Value) (store : Store)
    (h : (getColl store (env.collections mgr)).find?
      (fun d => matchesFilter (effectiveFilter df arg) d) = none) :
    find_one env mgr df arg false store =
      (Except.ok none, effectiveFilter df arg,
       [Event.findOneE (env.collections mgr) (effectiveFilter df arg)]) ∧
    find_one env mgr df arg true store =
      (Except.error (Err.notFound (effectiveFilter df arg)),
       effectiveFilter df arg,
       [Event.findOneE (env.collections mgr) (effectiveFilter df arg)]) := by
  constructor <;> simp [find_one, h]

/-- C5 witness: no stored parent has name "x". -/
theorem find_one_missing_raise_or_none_witness :
    find_one envC 0 [("name", Value.str "x")] none false storeC =
      (Except.ok none, effectiveFilter [("name", Value.str "x")] none,
       [Event.findOneE "parents"
         (effectiveFilter [("name", Value.str "x")] none)]) ∧
    find_one envC 0 [("name", Value.str "x")] none true storeC =
      (Except.error
        (Err.notFound (effectiveFilter [("name", Value.str "x")] none)),
       effectiveFilter [("name", Value.str "x")] none,
       [Event.findOneE "parents"
         (effectiveFilter [("name", Value.str "x")] none)]) :=
  find_one_missing_raise_or_none envC 0 [("name", Value.str "x")] none
    storeC rfl

/-- C6: composing `filter` twice equals one `filter` with the merged
predicate when the two predicates have disjoint key sets (stated with the
keys of `b` not occurring in `a`, and `b` duplicate-free, as Python dicts
are), and `filter` never mutates the receiver: the receiver's standing
filter after any `filter` call (second component) is what it was before. -/
theorem filter_merge_disjoint_and_immutable (m a b : DocFilter)
    (hd : ∀ k ∈ b.map Prod.fst, hasKey a k = false)
    (hb : (b.map Prod.fst).Nodup) :
    (TBM.filter (TBM.filter m (some a)).1 (some b)).1 =
      (TBM.filter m (some (dictMerge a b))).1 ∧
    (∀ (m' : DocFilter) (p : Option DocFilter), (TBM.filter m' p).2 = m') := by
  constructor
  · show dictMerge (dictMerge m a) b = dictMerge m (dictMerge a b)
    rw [dictMerge_eq_append a b hd hb]
    show List.foldl _ (List.foldl _ m a) b = List.foldl _ m (a ++ b)
    rw [List.foldl_append]
  · intro m' p
    rfl

/-- C6 witness: disjoint one-key predicates over a one-key standing
filter. -/
theorem filter_merge_disjoint_and_immutable_witness :
    (TBM.filter (TBM.filter [("x", Value.nat 1)]
        (some [("k1", Value.nat 2)])).1 (some [("k2", Value.nat 3)])).1 =
      (TBM.filter [("x", Value.nat 1)]
        (some (dictMerge [("k1", Value.nat 2)] [("k2", Value.nat 3)]))).1 ∧
    (∀ (m' : DocFilter) (p : Option DocFilter), (TBM.filter m' p).2 = m') :=
  filter_merge_disjoint_and_immutable [("x", Value.nat 1)]
    [("k1", Value.nat 2)] [("k2", Value.nat 3)]
    (by decide) (by decide)

/-- C7: `delete_many` ignores the relation map entirely (same result under
any registered edges), removes from the manager's own collection exactly the
documents matching the standing filter, leaves every other collection — in
particular any child type's collection — untouched, and emits one bulk
`delete_many` event and nothing else: no child fetch, no per-record delete,
no cascade. -/
theorem delete_many_no_cascade (colls : Nat → String)
    (regs regs' : List RegEntry) (mgr : Nat) (df : DocFilter)
    (store : Store) (c : String) (hc : c ≠ colls mgr) :
    delete_many ⟨colls, regs⟩ mgr df store =
      delete_many ⟨colls, regs'⟩ mgr df store ∧
    getColl (delete_many ⟨colls, regs⟩ mgr df store).2.1 c =
      getColl store c ∧
    getColl (delete_many ⟨colls, regs⟩ mgr df store).2.1 (colls mgr) =
      (getColl store (colls mgr)).filter (fun d => !matchesFilter df d) ∧
    (delete_many ⟨colls, regs⟩ mgr df store).2.2 =
      [Event.deleteManyE (colls mgr) df] := by
  refine ⟨rfl, ?_, ?_, rfl⟩
  · show getColl (setColl store (colls mgr) _) c = getColl store c
    rw [getColl_setColl]
    simp [hc]
  · show getColl (setColl store (colls mgr) _) (colls mgr) = _
    rw [getColl_setColl]
    simp

/-- C7 witness: the parent/child relation of `envC` is registered, the
parents are bulk-deleted through an all-matching standing filter, and the
children collection is untouched. -/
theorem delete_many_no_cascade_witness :
    delete_many ⟨envC.collections, envC.regs⟩ 0 [] storeC =
      delete_many ⟨envC.collections, []⟩ 0 [] storeC ∧
    getColl (delete_many ⟨envC.collections, envC.regs⟩ 0 [] storeC).2.1
      "children" = getColl storeC "children" ∧
    getColl (delete_many ⟨envC.collections, envC.regs⟩ 0 [] storeC).2.1
      (envC.collections 0) =
      (getColl storeC (envC.collections 0)).filter
        (fun d => !matchesFilter [] d) ∧
    (delete_many ⟨envC.collections, envC.regs⟩ 0 [] storeC).2.2 =
      [Event.deleteManyE (envC.collections 0) []] :=
  delete_many_no_cascade envC.collections envC.regs [] 0 [] storeC
    "children" (by decide)

/-- C9: when the identifier of the record matches no stored document,
`update` completes without error, returning the raw zero-matched store
result (matched_count and modified_count both 0); the single `update_one`
call is still issued and every collection is left exactly as it was —
indistinguishable from a no-op success at this layer. -/
theorem update_zero_matched_is_silent (env : Env) (mgr : Nat) (model : Rec)
    (inc exc : Option (List String)) (store : Store) (idv : Value)
    (hid : lookupKey model "id" = some idv)
    (hmiss : ∀ d ∈ getColl store (env.collections mgr),
      matchesFilter [("_id", idv)] d = false) :
    (TBM.update env mgr model inc exc store).1 = Except.ok (0, 0) ∧
    (TBM.update env mgr model inc exc store).2.2 =
      [Event.updateOneE (env.collections mgr) [("_id", idv)]
        (selectedDocument model inc exc)] ∧
    (∀ c, getColl (TBM.update env mgr model inc exc store).2.1 c =
      getColl store c) := by
  have hu := updateFirstMatch_of_no_match [("_id", idv)]
    (selectedDocument model inc exc) (getColl store (env.collections mgr))
    hmiss
  refine ⟨?_, ?_, ?_⟩
  · simp [TBM.update, hid, hu]
  · simp [TBM.update, hid, hu]
  · intro c
    simp [TBM.update, hid, hu, getColl_setColl]
    rcases eq_or_ne c (env.collections mgr) with h | h <;> simp [h]

/-- C9 witness: a record with the unknown identifier 42 against the
concrete store. -/
theorem update_zero_matched_is_silent_witness :
    (TBM.update envC 0 [("id", Value.oid 42)] none none storeC).1 =
      Except.ok (0, 0) ∧
    (TBM.update envC 0 [("id", Value.oid 42)] none none storeC).2.2 =
      [Event.updateOneE "parents" [("_id", Value.oid 42)]
        (selectedDocument [("id", Value.oid 42)] none none)] ∧
    (∀ c, getColl
      (TBM.update envC 0 [("id", Value.oid 42)] none none storeC).2.1 c =
      getColl storeC c) :=
  update_zero_matched_is_silent envC 0 [("id", Value.oid 42)] none none
    storeC (Value.oid 42) rfl (by decide)

/-- C10: a `find_one` call whose first positional argument is an ObjectId
permanently writes the binding of "_id" to that identifier into the
receiver's own standing `document_filter` (the source mutates
`self.document_filter` in place before the lookup; the model returns the
receiver's filter after the call as the second component), whatever the
lookup's outcome — so every later operation on the same manager instance is
additionally scoped to that identifier. -/
theorem find_one_mutates_document_filter (env : Env) (mgr : Nat)
    (df : DocFilter) (i : Nat) (re : Bool) (store : Store) :
    (find_one env mgr df (some (Value.oid i)) re store).2.1 =
      dictInsert df "_id" (Value.oid i) ∧
    lookupKey ((find_one env mgr df (some (Value.oid i)) re store).2.1)
      "_id" = some (Value.oid i) := by
  have h1 : (find_one env mgr df (some (Value.oid i)) re store).2.1 =
      dictInsert df "_id" (Value.oid i) := by
    unfold find_one
    simp only [effectiveFilter]
    rcases hf : (getColl store (env.collections mgr)).find?
        (fun d => matchesFilter (dictInsert df "_id" (Value.oid i)) d)
      with _ | d
    · by_cases hre : re <;> simp [hf, hre]
    · simp [hf]
  exact ⟨h1, by rw [h1]; exact lookupKey_dictInsert df "_id" (Value.oid i)⟩

/-- One manager with collection "a" and nothing registered, for the insert
scenarios. -/
def env8 : Env := { collections := fun _ => "a", regs := [] }

/-- A record with an identifier and two plain fields. -/
def mRec : Rec :=
  [("id", Value.oid 1), ("name", Value.str "n"), ("x", Value.nat 2)]

/-- Modelled from the words of the claim, for comparison only (the source
builds the document differently): the persisted document is the field set
restricted to `include` when given, otherwise minus `exclude`, where
`exclude` defaults to the identifier field. -/
def insertDocClaim (model : Rec) (inc exc : Option (List String)) : Doc :=
  if truthy inc then buildDoc model inc none
  else buildDoc model none (some (exc.getD ["id"]))

/-- C8 counterexample: with `exclude` given as the set holding only "name"
(and no `include`), the claim's document keeps the record's identifier
(under its alias), but the document `insert` actually persists drops it —
the source always adds 'id' to the exclude set — so the store assigns a
fresh identifier 7 instead of persisting identifier 1. -/
theorem insert_exclude_also_drops_id_counterexample :
    (TBM.insert env8 0 mRec none (some ["name"]) 7 []).2.2 =
      [Event.insertOneE "a" [("x", Value.nat 2), ("_id", Value.oid 7)]] ∧
    insertDocClaim mRec none (some ["name"]) =
      [("_id", Value.oid 1), ("x", Value.nat 2)] ∧
    hasKey (insertDocClaim mRec none (some ["name"])) "_id" = true ∧
    hasKey (selectedDocument mRec none (some ["name"])) "_id" = false :=
  ⟨rfl, rfl, rfl, rfl⟩

/-- C8 (amended): `insert` persists the field set restricted to `include`
when `include` is truthy — the built document is then exactly the
include-selection of the fields with no exclusion, and the whole call
result is independent of `exclude` (first part) — and otherwise minus
`exclude` and always additionally minus the identifier field, with
`exclude` defaulting to empty (second part).  Persistence and write-back,
on either path: when the built document carries no "_id" key the
store-assigned identifier is appended to it, the document is appended to
the collection, and that identifier is written back into the record's "id"
field (third part); when the built document does carry "_id" — a truthy
`include` selecting the identifier field — it is persisted exactly as
built and its own "_id" value is written back (fourth part).  On the
non-include path the built document never carries "_id" as long as the
model has no literal "_id" attribute (fifth part), so the third part is
the write-back rule there. -/
theorem insert_field_selection_and_writeback (env : Env) (mgr : Nat)
    (model : Rec) (inc exc exc2 : Option (List String)) (newId : Nat)
    (store : Store)
    (hidkey : hasKey model "id" = true) :
    (truthy inc = true →
      selectedDocument model inc exc = buildDoc model inc none ∧
      TBM.insert env mgr model inc exc newId store =
        TBM.insert env mgr model inc exc2 newId store) ∧
    (truthy inc = false →
      selectedDocument model inc exc =
        buildDoc model inc (some ("id" :: exc.getD []))) ∧
    (hasKey (selectedDocument model inc exc) "_id" = false →
      TBM.insert env mgr model inc exc newId store =
        (setField model "id" (Value.oid newId),
         setColl store (env.collections mgr)
           (getColl store (env.collections mgr) ++
             [selectedDocument model inc exc ++ [("_id", Value.oid newId)]]),
         [Event.insertOneE (env.collections mgr)
           (selectedDocument model inc exc ++ [("_id", Value.oid newId)])]) ∧
      lookupKey (TBM.insert env mgr model inc exc newId store).1 "id" =
        some (Value.oid newId)) ∧
    (∀ w, lookupKey (selectedDocument model inc exc) "_id" = some w →
      TBM.insert env mgr model inc exc newId store =
        (setField model "id" w,
         setColl store (env.collections mgr)
           (getColl store (env.collections mgr) ++
             [selectedDocument model inc exc]),
         [Event.insertOneE (env.collections mgr)
           (selectedDocument model inc exc)]) ∧
      lookupKey (TBM.insert env mgr model inc exc newId store).1 "id" =
        some w) ∧
    (truthy inc = false → hasKey model "_id" = false →
      hasKey (selectedDocument model inc exc) "_id" = false) := by
  refine ⟨?_, ?_, ?_, ?_, ?_⟩
  · intro h2
    constructor
    · simp [selectedDocument, h2]
    · simp [TBM.insert, selectedDocument, h2]
  · intro hinc
    simp [selectedDocument, hinc]
  · intro hno
    have hlk : lookupKey
        (selectedDocument model inc exc ++ [("_id", Value.oid newId)])
        "_id" = some (Value.oid newId) :=
      lookupKey_append_single _ _ _ hno
    have hmain : TBM.insert env mgr model inc exc newId store =
        (setField model "id" (Value.oid newId),
         setColl store (env.collections mgr)
           (getColl store (env.collections mgr) ++
             [selectedDocument model inc exc ++ [("_id", Value.oid newId)]]),
         [Event.insertOneE (env.collections mgr)
           (selectedDocument model inc exc ++ [("_id", Value.oid newId)])]) := by
      simp [TBM.insert, hno, hlk]
    refine ⟨hmain, ?_⟩
    rw [hmain]
    exact lookupKey_setField model "id" (Value.oid newId) hidkey
  · intro w hw
    have hk : hasKey (selectedDocument model inc exc) "_id" = true := by
      rw [hasKey_eq_isSome_lookupKey, hw]
      rfl
    have hmain : TBM.insert env mgr model inc exc newId store =
        (setField model "id" w,
         setColl store (env.collections mgr)
           (getColl store (env.collections mgr) ++
             [selectedDocument model inc exc]),
         [Event.insertOneE (env.collections mgr)
           (selectedDocument model inc exc)]) := by
      simp [TBM.insert, hk, hw]
    refine ⟨hmain, ?_⟩
    rw [hmain]
    exact lookupKey_setField model "id" w hidkey
  · intro hinc halias
    have hsel : selectedDocument model inc exc =
        buildDoc model inc (some ("id" :: exc.getD [])) := by
      simp [selectedDocument, hinc]
    rw [hsel]
    exact hasKey_buildDoc_exclude_id model inc (exc.getD []) halias

/-- C8 witness: all parts of the amended selection and write-back rule on
the concrete record — the include path with the identifier not selected
(document restricted to include, exclude ignored), the non-include path
with a store-assigned identifier written back, and the include path
selecting the identifier (document persisted as built, its own identifier
written back). -/
theorem insert_field_selection_and_writeback_witness :
    (selectedDocument mRec (some ["name", "x"]) (some ["name"]) =
      buildDoc mRec (some ["name", "x"]) none ∧
     TBM.insert env8 0 mRec (some ["name", "x"]) (some ["name"]) 7 [] =
       TBM.insert env8 0 mRec (some ["name", "x"]) none 7 []) ∧
    (TBM.insert env8 0 mRec none (some ["name"]) 7 [] =
      (setField mRec "id" (Value.oid 7),
       setColl [] (env8.collections 0)
         (getColl [] (env8.collections 0) ++
           [selectedDocument mRec none (some ["name"]) ++
             [("_id", Value.oid 7)]]),
       [Event.insertOneE (env8.collections 0)
         (selectedDocument mRec none (some ["name"]) ++
           [("_id", Value.oid 7)])]) ∧
     lookupKey (TBM.insert env8 0 mRec none (some ["name"]) 7 []).1 "id" =
       some (Value.oid 7)) ∧
    (TBM.insert env8 0 mRec (some ["id", "x"]) (some ["name"]) 7 [] =
      (setField mRec "id" (Value.oid 1),
       setColl [] (env8.collections 0)
         (getColl [] (env8.collections 0) ++
           [selectedDocument mRec (some ["id", "x"]) (some ["name"])]),
       [Event.insertOneE (env8.collections 0)
         (selectedDocument mRec (some ["id", "x"]) (some ["name"]))]) ∧
     lookupKey
       (TBM.insert env8 0 mRec (some ["id", "x"]) (some ["name"]) 7 []).1
       "id" = some (Value.oid 1)) :=
  ⟨(insert_field_selection_and_writeback env8 0 mRec (some ["name", "x"])
      (some ["name"]) none 7 [] rfl).1 rfl,
   (insert_field_selection_and_writeback env8 0 mRec none (some ["name"])
      none 7 [] rfl).2.2.1 rfl,
   (insert_field_selection_and_writeback env8 0 mRec (some ["id", "x"])
      (some ["name"]) none 7 [] rfl).2.2.2.1 (Value.oid 1) rfl⟩

end TBM
